import Mathlib

/-!
Shallow embedding of the user-list timeline endpoint
(src/packages/backend/src/server/api/endpoints/notes/user-list-timeline.ts).

The relational store is modelled as in-memory lists of rows; each repository
query becomes a filter over those lists.  Queries that the TypeScript code
awaits (and that can therefore reject) are modelled as Except-valued
functions, with failure injection flags carried in the environment.  The
external visibility-predicate builder (QueryService.generateVisibilityQuery)
is a black-box collaborator and is modelled as an arbitrary Boolean
predicate on notes carried in the environment.

Modelling choices, for the reader who diffs this against the source:
- Post identifiers are modelled as natural numbers.  The source compares id
  strings only through their total order (localeCompare in the merge step
  and the SQL comparisons for ordering and cursor bounds), and never
  inspects their string structure, so any kernel-computable linear order is
  a faithful model of the id space.
- The JavaScript sort of step 5 and the SQL ORDER BY are modelled with
  insertionSort over the descending-by-id relation; only the resulting
  order and permutation properties are relied upon.
- The batch for-loop advances its index by batchSize each iteration, so it
  performs at most validMembers.length iterations; the recursion is given
  that iteration budget explicitly, which keeps it structural.
-/

namespace UserListTimeline

/-- Visibility values a note can carry (public, home, followers, specified). -/
inductive Visibility where
  | public
  | home
  | followers
  | specified
deriving DecidableEq, Repr

/-- A note row joined with its author row; exactly the columns the endpoint
reads: id, userId, channelId, replyId, replyUserId, renoteId, text, fileIds,
visibility, and the joined user.isSuspended flag. -/
structure Note where
  id : Nat
  userId : String
  channelId : Option String
  replyId : Option Nat
  replyUserId : Option String
  renoteId : Option Nat
  text : Option String
  fileIds : List String
  visibility : Visibility
  userIsSuspended : Bool
deriving DecidableEq, Repr

/-- A user_list_membership row: (userListId, userId, withReplies). -/
structure Membership where
  userListId : String
  userId : String
  withReplies : Bool
deriving DecidableEq, Repr

/-- A directed relation row; stands for a muting row (muterId, muteeId), a
blocking row (blockerId, blockeeId) or a renote-muting row. -/
structure UserRelation where
  sourceId : String
  targetId : String
deriving DecidableEq, Repr

/-- The ps argument threaded through getFromDb / getOptimizedTimeline /
getNotesForUsers / getFallbackTimeline; every field is optional there. -/
structure Ps where
  untilId : Option Nat
  sinceId : Option Nat
  limit : Option Nat
  includeMyRenotes : Option Bool
  includeRenotedMyNotes : Option Bool
  includeLocalRenotes : Option Bool
  withFiles : Option Bool
  withRenotes : Option Bool
deriving DecidableEq, Repr

/-- A rejected repository query (the only failure the endpoint reacts to). -/
inductive DbErr where
  | queryFailed
deriving DecidableEq, Repr

deriving instance DecidableEq for Except

/-- The request environment: the relational tables, the black-box visibility
predicate, and failure-injection flags for each awaited repository query. -/
structure Env where
  memberships : List Membership
  mutings : List UserRelation
  blockings : List UserRelation
  renoteMutings : List UserRelation
  db : List Note
  visQ : Note → Bool
  membersFail : Bool
  mutedFail : Bool
  blockedFail : Bool
  renoteMutedFail : Bool
  fallbackFail : Bool
  batchFail : Nat → Bool

/-- JavaScript truthiness of an optional boolean. -/
def truthyBool : Option Bool → Bool
  | none => false
  | some b => b

/-- The descending-by-id order used by the merge step of
getOptimizedTimeline, (a, b) =&gt; b.id.localeCompare(a.id), and by the SQL
ORDER BY note.id DESC: a may precede b when the id of b is at most the id
of a. -/
def noteGe (a b : Note) : Prop := b.id ≤ a.id

instance : DecidableRel noteGe := fun a b => inferInstanceAs (Decidable (b.id ≤ a.id))

instance : IsTotal Note noteGe := ⟨fun a b => le_total b.id a.id⟩

instance : IsTrans Note noteGe := ⟨fun _ _ _ h1 h2 => le_trans h2 h1⟩

/-- The membersWithReplies set built at lines 298-300: the ids of the batch
members whose withReplies flag is set. -/
def membersWithReplies (members : List Membership) : List String :=
  (members.filter (fun m => m.withReplies)).map (fun m => m.userId)

/-- The reply-inclusion Brackets of getNotesForUsers (lines 297-315): keep a
note when it is no reply, a self-reply, a reply to the caller, or — only when
some batch member has withReplies — authored by such a member. -/
def replyFilter (members : List Membership) (meId : String) (note : Note) : Bool :=
  if (membersWithReplies members).length > 0 then
    note.replyId.isNone
      || note.replyUserId == some note.userId
      || note.replyUserId == some meId
      || (membersWithReplies members).contains note.userId
  else
    note.replyId.isNone
      || note.replyUserId == some note.userId
      || note.replyUserId == some meId

/-- The renote-mute Brackets (lines 321-327): active only when the
renote-muted id list is non-empty. -/
def renoteMuteFilter (renoteMutedUserIds : List String) (note : Note) : Bool :=
  if renoteMutedUserIds.length > 0 then
    note.renoteId.isNone || note.text.isSome || !(renoteMutedUserIds.contains note.userId)
  else true

/-- The includeMyRenotes === false Brackets (lines 330-337). -/
def includeMyRenotesFilter (ps : Ps) (meId : String) (note : Note) : Bool :=
  if ps.includeMyRenotes == some false then
    (note.userId != meId) || note.renoteId.isNone || note.text.isSome || !note.fileIds.isEmpty
  else true

/-- The withRenotes === false Brackets (lines 339-345). -/
def withRenotesFilter (ps : Ps) (note : Note) : Bool :=
  if ps.withRenotes == some false then
    note.renoteId.isNone || note.text.isSome || !note.fileIds.isEmpty
  else true

/-- The withFiles clause (lines 347-349). -/
def withFilesFilter (ps : Ps) (note : Note) : Bool :=
  if truthyBool ps.withFiles then !note.fileIds.isEmpty else true

/-- The paging clauses (lines 352-357): id &lt; untilId and id &gt; sinceId,
each added only when the parameter is present. -/
def cursorFilter (ps : Ps) (note : Note) : Bool :=
  (match ps.untilId with
   | some u => decide (note.id < u)
   | none => true)
  &&
  (match ps.sinceId with
   | some s => decide (s < note.id)
   | none => true)

/-- The whole WHERE clause of one batch query of getNotesForUsers. -/
def noteQueryPred (env : Env) (userIds : List String) (members : List Membership)
    (ps : Ps) (meId : String) (renoteMutedUserIds : List String) (note : Note) : Bool :=
  userIds.contains note.userId
  && note.channelId.isNone
  && !note.userIsSuspended
  && replyFilter members meId note
  && env.visQ note
  && renoteMuteFilter renoteMutedUserIds note
  && includeMyRenotesFilter ps meId note
  && withRenotesFilter ps note
  && withFilesFilter ps note
  && cursorFilter ps note

/-- Execution of one built query against the note table: apply the WHERE
predicate, order by id descending, and truncate to the row cap. -/
def runQuery (db : List Note) (pred : Note → Bool) (cap : Nat) : List Note :=
  (List.insertionSort noteGe (db.filter pred)).take cap

/-- getNotesForUsers (lines 271-363): one batch query — filter the note
table, order by id descending, cap at 50 rows. -/
def getNotesForUsers (env : Env) (userIds : List String) (members : List Membership)
    (ps : Ps) (meId : String) (renoteMutedUserIds : List String) : List Note :=
  runQuery env.db (noteQueryPred env userIds members ps meId renoteMutedUserIds) 50

/-- The membership fetch of getOptimizedTimeline (lines 185-189). -/
def fetchListMembers (env : Env) (listId : String) : Except DbErr (List Membership) :=
  if env.membersFail then .error .queryFailed
  else .ok (env.memberships.filter (fun m => m.userListId == listId))

/-- getMutedUsers (lines 239-246): mutings where muterId = userId, mapped to
muteeId; a rejection propagates. -/
def getMutedUsers (env : Env) (userId : String) : Except DbErr (List String) :=
  if env.mutedFail then .error .queryFailed
  else .ok ((env.mutings.filter (fun r => r.sourceId == userId)).map (fun r => r.targetId))

/-- getBlockedUsers (lines 248-255): blockings where blockerId = userId,
mapped to blockeeId; a rejection propagates. -/
def getBlockedUsers (env : Env) (userId : String) : Except DbErr (List String) :=
  if env.blockedFail then .error .queryFailed
  else .ok ((env.blockings.filter (fun r => r.sourceId == userId)).map (fun r => r.targetId))

/-- The raw renote-muting query inside getRenoteMutedUsers (lines 259-264). -/
def renoteMutingsQuery (env : Env) (userId : String) : Except DbErr (List String) :=
  if env.renoteMutedFail then .error .queryFailed
  else .ok ((env.renoteMutings.filter (fun r => r.sourceId == userId)).map (fun r => r.targetId))

/-- getRenoteMutedUsers (lines 257-269): the raw query wrapped in try/catch;
a rejection (missing RenoteMuting table) degrades to the empty list. -/
def getRenoteMutedUsers (env : Env) (userId : String) : Except DbErr (List String) :=
  match renoteMutingsQuery env userId with
  | .ok r => .ok r
  | .error _ => .ok []

/-- The batch loop of getOptimizedTimeline (lines 211-229), with an explicit
iteration budget (first argument) that makes the recursion structural.
Returns the accumulated notes together with a trace of the userId lists of
the batch queries issued, in order.  A failed batch is skipped
(catch / continue); after a successful batch the loop stops once the
accumulator holds at least limit * 3 notes. -/
def batchLoopAux (env : Env) (ps : Ps) (meId : String) (renoteMutedUserIds : List String) :
    Nat → List Membership → List Note → Nat → List Note × List (List String)
  | _, [], acc, _ => (acc, [])
  | 0, _ :: _, acc, _ => (acc, [])
  | fuel + 1, m :: rest, acc, b =>
    let batch := (m :: rest).take 15
    let batchUserIds := batch.map (fun x => x.userId)
    if env.batchFail b then
      let r := batchLoopAux env ps meId renoteMutedUserIds fuel ((m :: rest).drop 15)
        acc (b + 1)
      (r.1, batchUserIds :: r.2)
    else
      let acc' := acc ++ getNotesForUsers env batchUserIds batch ps meId renoteMutedUserIds
      if (ps.limit.getD 10) * 3 ≤ acc'.length then
        (acc', [batchUserIds])
      else
        let r := batchLoopAux env ps meId renoteMutedUserIds fuel ((m :: rest).drop 15)
          acc' (b + 1)
        (r.1, batchUserIds :: r.2)

/-- The batch loop entry point: the for-loop of getOptimizedTimeline runs at
most validMembers.length iterations (the index advances by the batch size
each round), so that budget is never exhausted. -/
def batchLoop (env : Env) (ps : Ps) (meId : String) (renoteMutedUserIds : List String)
    (validMembers : List Membership) (acc : List Note) (b : Nat) :
    List Note × List (List String) :=
  batchLoopAux env ps meId renoteMutedUserIds validMembers.length validMembers acc b

/-- getOptimizedTimeline (lines 172-237): fetch members, resolve the three
relations (awaited jointly; any rejection of the mute or block lookup rejects
the whole path), filter members by the muted/blocked union, run the batch
loop, then sort by id descending and truncate to the limit. -/
def getOptimizedTimeline (env : Env) (listId : String) (ps : Ps) (meId : String) :
    Except DbErr (List Note) :=
  match fetchListMembers env listId with
  | .error e => .error e
  | .ok listMembers =>
    if listMembers.length == 0 then .ok []
    else
      match getMutedUsers env meId, getBlockedUsers env meId,
          getRenoteMutedUsers env meId with
      | .ok mutedUserIds, .ok blockedUserIds, .ok renoteMutedUserIds =>
        let blockedSet := mutedUserIds ++ blockedUserIds
        let validMembers := listMembers.filter (fun m => !(blockedSet.contains m.userId))
        if validMembers.length == 0 then .ok []
        else
          let allNotes := (batchLoop env ps meId renoteMutedUserIds validMembers [] 0).1
          .ok ((List.insertionSort noteGe allNotes).take (ps.limit.getD 10))
      | .error e, _, _ => .error e
      | _, .error e, _ => .error e
      | _, _, .error e => .error e

/-- The WHERE clause of getFallbackTimeline (lines 376-389): the inner join
on user_list_membership is modelled as an existence test (memberships are
unique on (userListId, userId)). -/
def fallbackPred (env : Env) (listId : String) (ps : Ps) (note : Note) : Bool :=
  env.memberships.any (fun m => m.userId == note.userId && m.userListId == listId)
  && note.channelId.isNone
  && !note.userIsSuspended
  && (note.visibility == Visibility.public || note.visibility == Visibility.home)
  && cursorFilter ps note

/-- getFallbackTimeline (lines 365-395): the rows produced by a successful
run of the minimal defensive query — membership join, channelId null, author
not suspended, visibility in (public, home), cursor bounds, order by id
descending, limit.  The awaited execution of that query, which can itself
reject, is runFallbackTimeline below. -/
def getFallbackTimeline (env : Env) (listId : String) (ps : Ps) : List Note :=
  runQuery env.db (fallbackPred env listId ps) (ps.limit.getD 10)

/-- The awaited getMany() of getFallbackTimeline (line 394): the repository
call can reject — injected by the fallbackFail flag — and the source wraps
it in no catch, so a rejection propagates; on success the rows are
getFallbackTimeline. -/
def runFallbackTimeline (env : Env) (listId : String) (ps : Ps) :
    Except DbErr (List Note) :=
  if env.fallbackFail then .error .queryFailed
  else .ok (getFallbackTimeline env listId ps)

/-- getFromDb (lines 155-170): try the optimized path; on any rejection run
the fallback query from inside the catch block and return whatever it
produces — a rejection of the fallback query itself is not caught. -/
def getFromDb (env : Env) (listId : String) (ps : Ps) (meId : String) :
    Except DbErr (List Note) :=
  match getOptimizedTimeline env listId ps meId with
  | .ok r => .ok r
  | .error _ => runFallbackTimeline env listId ps

/-- Lines 98-99 of the endpoint handler:
ps.untilId ?? (ps.untilDate ? idService.gen(ps.untilDate) : null), and the
same shape for sinceId/sinceDate.  The nullish-coalescing operator keeps any
present id; the date is consulted only otherwise, and a zero date is falsy. -/
def resolveCursorId (idParam : Option Nat) (dateParam : Option Nat)
    (gen : Nat → Nat) : Option Nat :=
  match idParam with
  | some i => some i
  | none =>
    match dateParam with
    | some d => if d == 0 then none else some (gen d)
    | none => none

/-! Concrete fixtures used to instantiate the theorems below. -/

/-- Request parameters with every optional field absent. -/
def psNone : Ps :=
  { untilId := none, sinceId := none, limit := none,
    includeMyRenotes := none, includeRenotedMyNotes := none,
    includeLocalRenotes := none, withFiles := none, withRenotes := none }

/-- A plain public text note by member A. -/
def noteA : Note :=
  { id := 9, userId := "A", channelId := none, replyId := none,
    replyUserId := none, renoteId := none, text := some "hello", fileIds := [],
    visibility := .public, userIsSuspended := false }

/-- A plain public text note by member C. -/
def noteC : Note :=
  { id := 8, userId := "C", channelId := none, replyId := none,
    replyUserId := none, renoteId := none, text := some "note by c", fileIds := [],
    visibility := .public, userIsSuspended := false }

/-- A text-free renote by member A that carries one attachment. -/
def noteRenote : Note :=
  { id := 7, userId := "A", channelId := none, replyId := none,
    replyUserId := none, renoteId := some 1, text := none, fileIds := ["f1"],
    visibility := .public, userIsSuspended := false }

/-- Environment with members A and C on list L, C muted by the caller (me),
and no failure injected. -/
def envBasic : Env :=
  { memberships := [⟨"L", "A", false⟩, ⟨"L", "C", false⟩],
    mutings := [⟨"me", "C"⟩], blockings := [], renoteMutings := [],
    db := [noteA, noteC], visQ := fun _ => true,
    membersFail := false, mutedFail := false, blockedFail := false,
    renoteMutedFail := false, fallbackFail := false, batchFail := fun _ => false }

/-- The same store as envBasic, but the membership query rejects, which makes
the optimized path throw so that getFromDb takes the fallback. -/
def envMembersFail : Env :=
  { envBasic with membersFail := true }

/-- Environment for the withRenotes counterexample: one member whose only
note is the text-free renote with an attachment. -/
def envRenote : Env :=
  { memberships := [⟨"L", "A", false⟩],
    mutings := [], blockings := [], renoteMutings := [],
    db := [noteRenote], visQ := fun _ => true,
    membersFail := false, mutedFail := false, blockedFail := false,
    renoteMutedFail := false, fallbackFail := false, batchFail := fun _ => false }

/-- Twenty list members, for the batching scenario of the spec. -/
def members20 : List Membership :=
  (List.range 20).map
    (fun i => { userListId := "L20", userId := toString i, withReplies := false })

/-! General lemmas about the sort order and query execution. -/

theorem mem_runQuery {db : List Note} {pred : Note → Bool} {cap : Nat} {n : Note}
    (h : n ∈ runQuery db pred cap) : n ∈ db ∧ pred n = true := by
  unfold runQuery at h
  have h1 := List.mem_of_mem_take h
  have h2 := (List.perm_insertionSort noteGe (db.filter pred)).mem_iff.mp h1
  exact ⟨(List.mem_filter.mp h2).1, (List.mem_filter.mp h2).2⟩

theorem runQuery_sorted (db : List Note) (pred : Note → Bool) (cap : Nat) :
    List.Pairwise (fun a b : Note => b.id ≤ a.id) (runQuery db pred cap) := by
  unfold runQuery
  refine List.Pairwise.sublist (List.take_sublist _ _) ?_
  exact (List.sorted_insertionSort noteGe (db.filter pred)).imp (fun h => h)

theorem runQuery_ids_nodup {db : List Note} (pred : Note → Bool) (cap : Nat)
    (hdb : (db.map Note.id).Nodup) : ((runQuery db pred cap).map Note.id).Nodup := by
  unfold runQuery
  have h1 : ((db.filter pred).map Note.id).Nodup :=
    List.Sublist.nodup (List.Sublist.map Note.id (List.filter_sublist db)) hdb
  have h2 : ((List.insertionSort noteGe (db.filter pred)).map Note.id).Nodup :=
    ((List.perm_insertionSort noteGe (db.filter pred)).map Note.id).nodup_iff.mpr h1
  exact List.Sublist.nodup (List.Sublist.map Note.id (List.take_sublist cap _)) h2

theorem runQuery_length_le (db : List Note) (pred : Note → Bool) (cap : Nat) :
    (runQuery db pred cap).length ≤ cap := by
  unfold runQuery
  exact List.length_take_le cap _

theorem pairwise_lt_of_ids_nodup {l : List Note}
    (hle : List.Pairwise (fun a b : Note => b.id ≤ a.id) l)
    (hnd : (l.map Note.id).Nodup) :
    List.Pairwise (fun a b : Note => b.id < a.id) l := by
  have h2 : List.Pairwise (fun a b : Note => a.id ≠ b.id) l := by
    simpa [List.Nodup, List.pairwise_map] using hnd
  exact (hle.and h2).imp (fun h => lt_of_le_of_ne h.1 (Ne.symm h.2))

/-- Unpacking of one batch query result: the note is a database note and
every clause of the built WHERE predicate holds of it. -/
theorem mem_getNotesForUsers {env : Env} {uids : List String} {members : List Membership}
    {ps : Ps} {meId : String} {rm : List String} {n : Note}
    (h : n ∈ getNotesForUsers env uids members ps meId rm) :
    n ∈ env.db ∧ n.userId ∈ uids ∧ n.channelId = none ∧ n.userIsSuspended = false ∧
    replyFilter members meId n = true ∧ env.visQ n = true ∧
    renoteMuteFilter rm n = true ∧ includeMyRenotesFilter ps meId n = true ∧
    withRenotesFilter ps n = true ∧ withFilesFilter ps n = true ∧
    cursorFilter ps n = true := by
  obtain ⟨hdb, hpred⟩ := mem_runQuery h
  simp only [noteQueryPred, Bool.and_eq_true] at hpred
  obtain ⟨⟨⟨⟨⟨⟨⟨⟨⟨h1, h2⟩, h3⟩, h4⟩, h5⟩, h6⟩, h7⟩, h8⟩, h9⟩, h10⟩ := hpred
  refine ⟨hdb, ?_, ?_, ?_, h4, h5, h6, h7, h8, h9, h10⟩
  · simpa using h1
  · simpa using h2
  · simpa using h3

/-- The map of a list filter is a sublist of the map of the list. -/
theorem map_filter_sublist {α β : Type} (f : α → β) (p : α → Bool) (l : List α) :
    ((l.filter p).map f).Sublist (l.map f) :=
  List.Sublist.map f (List.filter_sublist l)

/-- Splitting the mapped member ids of a batch partition: the ids of the
first batch and of the remaining members are disjoint when the whole member
id list has no duplicates. -/
theorem take_drop_map_disjoint {α β : Type} [DecidableEq β] (f : α → β) (l : List α) (k : Nat)
    (h : (l.map f).Nodup) :
    List.Disjoint ((l.take k).map f) ((l.drop k).map f) := by
  have heq : l.map f = (l.take k).map f ++ (l.drop k).map f := by
    rw [← List.map_append, List.take_append_drop]
  rw [heq] at h
  exact (List.nodup_append.mp h).2.2

/-- Every note accumulated by the batch loop is either already in the
accumulator or a database note authored by one of the remaining members. -/
theorem batchLoopAux_mem (env : Env) (ps : Ps) (meId : String) (rm : List String) :
    ∀ fuel vm acc b, ∀ n ∈ (batchLoopAux env ps meId rm fuel vm acc b).1,
      n ∈ acc ∨ (n ∈ env.db ∧ n.userId ∈ vm.map (fun m => m.userId)) := by
  intro fuel vm acc b
  induction fuel, vm, acc, b using batchLoopAux.induct env ps meId rm with
  | case1 t acc b =>
    intro n hn
    simp only [batchLoopAux] at hn
    exact Or.inl hn
  | case2 m rest acc b =>
    intro n hn
    simp only [batchLoopAux] at hn
    exact Or.inl hn
  | case3 fuel m rest acc b hfail ih =>
    intro n hn
    simp only [batchLoopAux] at hn
    rw [if_pos hfail] at hn
    rcases ih n hn with h | ⟨hdb, hid⟩
    · exact Or.inl h
    · exact Or.inr ⟨hdb, List.Sublist.mem hid (List.Sublist.map _ (List.drop_sublist 15 _))⟩
  | case4 fuel m rest acc b batch buids hfail acc2 hstop =>
    intro n hn
    simp only [batchLoopAux] at hn
    rw [if_neg hfail] at hn
    rw [if_pos hstop] at hn
    rcases List.mem_append.mp hn with h | h
    · exact Or.inl h
    · have hq := mem_getNotesForUsers h
      refine Or.inr ⟨hq.1, ?_⟩
      exact List.Sublist.mem hq.2.1 (List.Sublist.map _ (List.take_sublist 15 _))
  | case5 fuel m rest acc b batch buids hfail acc2 hstop ih =>
    intro n hn
    simp only [batchLoopAux] at hn
    rw [if_neg hfail] at hn
    rw [if_neg hstop] at hn
    rcases ih n hn with h | ⟨hdb, hid⟩
    · rcases List.mem_append.mp h with h | h
      · exact Or.inl h
      · have hq := mem_getNotesForUsers h
        refine Or.inr ⟨hq.1, ?_⟩
        exact List.Sublist.mem hq.2.1 (List.Sublist.map _ (List.take_sublist 15 _))
    · exact Or.inr ⟨hdb, List.Sublist.mem hid (List.Sublist.map _ (List.drop_sublist 15 _))⟩

/-- Batch-loop invariant: when database note ids are unique, remaining
member ids are unique, the accumulator is made of database notes with unique
ids, and no accumulator note is authored by a remaining member, then the
loop keeps note ids unique and keeps every note a database note. -/
theorem batchLoopAux_ids_nodup (env : Env) (ps : Ps) (meId : String) (rm : List String)
    (hdb : (env.db.map Note.id).Nodup) :
    ∀ fuel vm acc b,
      (vm.map (fun m => m.userId)).Nodup →
      ((acc.map Note.id).Nodup) →
      (∀ n ∈ acc, n ∈ env.db) →
      (∀ n ∈ acc, n.userId ∉ vm.map (fun m => m.userId)) →
      (((batchLoopAux env ps meId rm fuel vm acc b).1.map Note.id).Nodup ∧
       ∀ n ∈ (batchLoopAux env ps meId rm fuel vm acc b).1, n ∈ env.db) := by
  intro fuel vm acc b
  induction fuel, vm, acc, b using batchLoopAux.induct env ps meId rm with
  | case1 t acc b =>
    intro _ hacc haccdb _
    simp only [batchLoopAux]
    exact ⟨hacc, haccdb⟩
  | case2 m rest acc b =>
    intro _ hacc haccdb _
    simp only [batchLoopAux]
    exact ⟨hacc, haccdb⟩
  | case3 fuel m rest acc b hfail ih =>
    intro hvm hacc haccdb hdisj
    simp only [batchLoopAux]
    rw [if_pos hfail]
    refine ih ?_ hacc haccdb ?_
    · exact List.Sublist.nodup (List.Sublist.map _ (List.drop_sublist 15 _)) hvm
    · intro n hn hmem
      exact hdisj n hn (List.Sublist.mem hmem (List.Sublist.map _ (List.drop_sublist 15 _)))
  | case4 fuel m rest acc b batch buids hfail acc2 hstop =>
    intro hvm hacc haccdb hdisj
    simp only [batchLoopAux]
    rw [if_neg hfail, if_pos hstop]
    constructor
    · rw [List.map_append, List.nodup_append]
      refine ⟨hacc, runQuery_ids_nodup _ _ hdb, ?_⟩
      intro i hi hi2
      obtain ⟨n, hn, hnid⟩ := List.mem_map.mp hi
      obtain ⟨p, hp, hpid⟩ := List.mem_map.mp hi2
      have hq := mem_getNotesForUsers hp
      have hnp : n = p :=
        List.inj_on_of_nodup_map hdb (haccdb n hn) hq.1 (hnid.trans hpid.symm)
      have : n.userId ∈ (m :: rest).map (fun x => x.userId) := by
        rw [hnp]
        exact List.Sublist.mem hq.2.1 (List.Sublist.map _ (List.take_sublist 15 _))
      exact hdisj n hn this
    · intro n hn
      rcases List.mem_append.mp hn with h | h
      · exact haccdb n h
      · exact (mem_getNotesForUsers h).1
  | case5 fuel m rest acc b batch buids hfail acc2 hstop ih =>
    intro hvm hacc haccdb hdisj
    simp only [batchLoopAux]
    rw [if_neg hfail, if_neg hstop]
    have hacc2nodup : ((acc ++ getNotesForUsers env buids batch ps meId rm).map
        Note.id).Nodup := by
      rw [List.map_append, List.nodup_append]
      refine ⟨hacc, runQuery_ids_nodup _ _ hdb, ?_⟩
      intro i hi hi2
      obtain ⟨n, hn, hnid⟩ := List.mem_map.mp hi
      obtain ⟨p, hp, hpid⟩ := List.mem_map.mp hi2
      have hq := mem_getNotesForUsers hp
      have hnp : n = p :=
        List.inj_on_of_nodup_map hdb (haccdb n hn) hq.1 (hnid.trans hpid.symm)
      have : n.userId ∈ (m :: rest).map (fun x => x.userId) := by
        rw [hnp]
        exact List.Sublist.mem hq.2.1 (List.Sublist.map _ (List.take_sublist 15 _))
      exact hdisj n hn this
    refine ih ?_ hacc2nodup ?_ ?_
    · exact List.Sublist.nodup (List.Sublist.map _ (List.drop_sublist 15 _)) hvm
    · intro n hn
      rcases List.mem_append.mp hn with h | h
      · exact haccdb n h
      · exact (mem_getNotesForUsers h).1
    · intro n hn hmem
      rcases List.mem_append.mp hn with h | h
      · exact hdisj n h (List.Sublist.mem hmem (List.Sublist.map _ (List.drop_sublist 15 _)))
      · have hq := mem_getNotesForUsers h
        have hdisj2 := take_drop_map_disjoint (fun x : Membership => x.userId)
          (m :: rest) 15 hvm
        exact hdisj2 hq.2.1 hmem

/-- Any property enjoyed by every batch query result and by the accumulator
is enjoyed by the whole batch-loop accumulation. -/
theorem batchLoopAux_pred (env : Env) (ps : Ps) (meId : String) (rm : List String)
    (P : Note → Prop)
    (hP : ∀ (uids : List String) (members : List Membership) (n : Note),
      n ∈ getNotesForUsers env uids members ps meId rm → P n) :
    ∀ fuel vm acc b, (∀ n ∈ acc, P n) →
      ∀ n ∈ (batchLoopAux env ps meId rm fuel vm acc b).1, P n := by
  intro fuel vm acc b
  induction fuel, vm, acc, b using batchLoopAux.induct env ps meId rm with
  | case1 t acc b =>
    intro hacc n hn
    simp only [batchLoopAux] at hn
    exact hacc n hn
  | case2 m rest acc b =>
    intro hacc n hn
    simp only [batchLoopAux] at hn
    exact hacc n hn
  | case3 fuel m rest acc b hfail ih =>
    intro hacc n hn
    simp only [batchLoopAux] at hn
    rw [if_pos hfail] at hn
    exact ih hacc n hn
  | case4 fuel m rest acc b batch buids hfail acc2 hstop =>
    intro hacc n hn
    simp only [batchLoopAux] at hn
    rw [if_neg hfail, if_pos hstop] at hn
    rcases List.mem_append.mp hn with h | h
    · exact hacc n h
    · exact hP _ _ n h
  | case5 fuel m rest acc b batch buids hfail acc2 hstop ih =>
    intro hacc n hn
    simp only [batchLoopAux] at hn
    rw [if_neg hfail, if_neg hstop] at hn
    refine ih ?_ n hn
    intro p hp
    rcases List.mem_append.mp hp with h | h
    · exact hacc p h
    · exact hP _ _ p h

/-- The iteration budget of the batch loop is irrelevant as long as it is at
least the number of remaining members: each iteration consumes a slice of 15
of them. -/
theorem batchLoopAux_fuel (env : Env) (ps : Ps) (meId : String) (rm : List String) :
    ∀ fuel fuel2 vm acc b, vm.length ≤ fuel → vm.length ≤ fuel2 →
      batchLoopAux env ps meId rm fuel vm acc b
        = batchLoopAux env ps meId rm fuel2 vm acc b := by
  intro fuel
  induction fuel with
  | zero =>
    intro fuel2 vm acc b h1 h2
    have hnil : vm = [] := by
      cases vm with
      | nil => rfl
      | cons x xs => simp at h1
    subst hnil
    simp [batchLoopAux]
  | succ fuel ih =>
    intro fuel2 vm acc b h1 h2
    cases vm with
    | nil => simp [batchLoopAux]
    | cons m rest =>
      cases fuel2 with
      | zero =>
        exfalso
        simp at h2
      | succ fuel2 =>
        simp only [batchLoopAux]
        have hd1 : (List.drop 15 (m :: rest)).length ≤ fuel := by
          simp only [List.length_drop, List.length_cons] at *
          omega
        have hd2 : (List.drop 15 (m :: rest)).length ≤ fuel2 := by
          simp only [List.length_drop, List.length_cons] at *
          omega
        by_cases hfail : env.batchFail b = true
        · rw [if_pos hfail, if_pos hfail, ih fuel2 _ _ _ hd1 hd2]
        · rw [if_neg hfail, if_neg hfail]
          by_cases hstop : ps.limit.getD 10 * 3 ≤
              (acc ++ getNotesForUsers env
                ((List.take 15 (m :: rest)).map (fun x => x.userId))
                (List.take 15 (m :: rest)) ps meId rm).length
          · rw [if_pos hstop, if_pos hstop]
          · rw [if_neg hstop, if_neg hstop, ih fuel2 _ _ _ hd1 hd2]

/-- Every batch query recorded by the loop trace is scoped to the next
15-member slice: the k-th issued query targets members 15k to 15k+14 of the
remaining member list. -/
theorem batchLoopAux_trace (env : Env) (ps : Ps) (meId : String) (rm : List String) :
    ∀ fuel vm acc b k, k < ((batchLoopAux env ps meId rm fuel vm acc b).2).length →
      ((batchLoopAux env ps meId rm fuel vm acc b).2)[k]?
        = some (((vm.drop (15 * k)).take 15).map (fun m => m.userId)) := by
  intro fuel vm acc b
  induction fuel, vm, acc, b using batchLoopAux.induct env ps meId rm with
  | case1 t acc b =>
    intro k hk
    simp [batchLoopAux] at hk
  | case2 m rest acc b =>
    intro k hk
    simp [batchLoopAux] at hk
  | case3 fuel m rest acc b hfail ih =>
    intro k hk
    simp only [batchLoopAux] at hk ⊢
    rw [if_pos hfail] at hk ⊢
    cases k with
    | zero => simp
    | succ k =>
      have hk2 : k < ((batchLoopAux env ps meId rm fuel (List.drop 15 (m :: rest))
          acc (b + 1)).2).length := by
        simp only [List.length_cons] at hk
        omega
      have harith : 15 + 15 * k = 15 * (k + 1) := by ring
      simp only [List.getElem?_cons_succ]
      exact (ih k hk2).trans (by rw [List.drop_drop, harith])
  | case4 fuel m rest acc b batch buids hfail acc2 hstop =>
    intro k hk
    simp only [batchLoopAux] at hk ⊢
    rw [if_neg hfail, if_pos hstop] at hk ⊢
    cases k with
    | zero => simp
    | succ k =>
      exfalso
      simp at hk
  | case5 fuel m rest acc b batch buids hfail acc2 hstop ih =>
    intro k hk
    simp only [batchLoopAux] at hk ⊢
    rw [if_neg hfail, if_neg hstop] at hk ⊢
    cases k with
    | zero => simp
    | succ k =>
      have hk2 : k < ((batchLoopAux env ps meId rm fuel (List.drop 15 (m :: rest))
          (acc ++ getNotesForUsers env
            ((List.take 15 (m :: rest)).map (fun x => x.userId))
            (List.take 15 (m :: rest)) ps meId rm) (b + 1)).2).length := by
        simp only [List.length_cons] at hk
        omega
      have harith : 15 + 15 * k = 15 * (k + 1) := by ring
      simp only [List.getElem?_cons_succ]
      exact (ih k hk2).trans (by rw [List.drop_drop, harith])

/-- When withRenotes is the literal false, the withRenotes clause admits
exactly the notes that are no renote, have text, or carry attachments. -/
theorem withRenotesFilter_false {ps : Ps} {n : Note} (hwr : ps.withRenotes = some false)
    (h : withRenotesFilter ps n = true) :
    n.renoteId = none ∨ n.text.isSome = true ∨ n.fileIds ≠ [] := by
  unfold withRenotesFilter at h
  rw [hwr] at h
  simp at h
  tauto

/-! Shape lemmas for the fallible lookups and the optimized path. -/

theorem getMutedUsers_ok {env : Env} {uid : String} {l : List String}
    (h : getMutedUsers env uid = .ok l) :
    l = (env.mutings.filter (fun r => r.sourceId == uid)).map (fun r => r.targetId) := by
  unfold getMutedUsers at h
  split at h
  · exact Except.noConfusion h
  · exact ((Except.ok.injEq _ _).mp h).symm

theorem getBlockedUsers_ok {env : Env} {uid : String} {l : List String}
    (h : getBlockedUsers env uid = .ok l) :
    l = (env.blockings.filter (fun r => r.sourceId == uid)).map (fun r => r.targetId) := by
  unfold getBlockedUsers at h
  split at h
  · exact Except.noConfusion h
  · exact ((Except.ok.injEq _ _).mp h).symm

theorem fetchListMembers_ok {env : Env} {listId : String} {l : List Membership}
    (h : fetchListMembers env listId = .ok l) :
    l = env.memberships.filter (fun m => m.userListId == listId) := by
  unfold fetchListMembers at h
  split at h
  · exact Except.noConfusion h
  · exact ((Except.ok.injEq _ _).mp h).symm

/-- A successful optimized run is either an early-returned empty list or the
sorted, limit-truncated batch-loop accumulation over the filtered members,
with all three relation lookups reported successful. -/
theorem getOptimizedTimeline_ok {env : Env} {listId : String} {ps : Ps} {meId : String}
    {r : List Note} (h : getOptimizedTimeline env listId ps meId = .ok r) :
    r = [] ∨
    ∃ muted blocked rmu,
      getMutedUsers env meId = .ok muted ∧
      getBlockedUsers env meId = .ok blocked ∧
      getRenoteMutedUsers env meId = .ok rmu ∧
      r = (List.insertionSort noteGe (batchLoop env ps meId rmu
            ((env.memberships.filter (fun m => m.userListId == listId)).filter
              (fun m => !((muted ++ blocked).contains m.userId))) [] 0).1).take
            (ps.limit.getD 10) := by
  unfold getOptimizedTimeline at h
  split at h
  · exact Except.noConfusion h
  next lm hfm =>
    have hlm := fetchListMembers_ok hfm
    split at h
    · exact Or.inl ((Except.ok.injEq _ _).mp h).symm
    · split at h
      next muted blocked rmu hm hb hr =>
        simp only [] at h
        split at h
        · exact Or.inl ((Except.ok.injEq _ _).mp h).symm
        · refine Or.inr ⟨muted, blocked, rmu, hm, hb, hr, ?_⟩
          rw [← hlm]
          exact ((Except.ok.injEq _ _).mp h).symm
      · exact Except.noConfusion h
      · exact Except.noConfusion h
      · exact Except.noConfusion h

theorem cursorFilter_until {ps : Ps} {n : Note} {u : Nat}
    (h : cursorFilter ps n = true) (hu : ps.untilId = some u) : n.id < u := by
  unfold cursorFilter at h
  rw [hu] at h
  simp only [Bool.and_eq_true, decide_eq_true_eq] at h
  exact h.1

theorem cursorFilter_since {ps : Ps} {n : Note} {s : Nat}
    (h : cursorFilter ps n = true) (hs : ps.sinceId = some s) : s < n.id := by
  unfold cursorFilter at h
  rw [hs] at h
  simp only [Bool.and_eq_true, decide_eq_true_eq] at h
  exact h.2

/-- Unpacking of a fallback query result: a database note whose author has a
membership row for the list, with null channel, non-suspended author, public
or home visibility, and the cursor bounds satisfied. -/
theorem mem_getFallbackTimeline {env : Env} {listId : String} {ps : Ps} {n : Note}
    (h : n ∈ getFallbackTimeline env listId ps) :
    n ∈ env.db ∧
    (∃ m ∈ env.memberships, m.userId = n.userId ∧ m.userListId = listId) ∧
    n.channelId = none ∧ n.userIsSuspended = false ∧
    (n.visibility = .public ∨ n.visibility = .home) ∧
    cursorFilter ps n = true := by
  obtain ⟨hdb, hpred⟩ := mem_runQuery h
  simp only [fallbackPred, Bool.and_eq_true] at hpred
  obtain ⟨⟨⟨⟨h1, h2⟩, h3⟩, h4⟩, h5⟩ := hpred
  refine ⟨hdb, ?_, by simpa using h2, by simpa using h3, ?_, h5⟩
  · obtain ⟨m, hm, hmp⟩ := List.any_eq_true.mp h1
    rw [Bool.and_eq_true] at hmp
    exact ⟨m, hm, by simpa using hmp.1, by simpa using hmp.2⟩
  · rcases Bool.or_eq_true _ _ ▸ h4 with hv | hv
    · exact Or.inl (by simpa using hv)
    · exact Or.inr (by simpa using hv)

/-! Congruence lemmas: the batch query and the optimized path read only
some of the ps fields. -/

theorem noteQueryPred_congr (env : Env) (uids : List String) (members : List Membership)
    (meId : String) (rm : List String) {ps ps' : Ps}
    (hu : ps.untilId = ps'.untilId) (hs : ps.sinceId = ps'.sinceId)
    (hm : ps.includeMyRenotes = ps'.includeMyRenotes)
    (hf : ps.withFiles = ps'.withFiles) (hw : ps.withRenotes = ps'.withRenotes) :
    noteQueryPred env uids members ps meId rm
      = noteQueryPred env uids members ps' meId rm := by
  funext n
  unfold noteQueryPred includeMyRenotesFilter withRenotesFilter withFilesFilter cursorFilter
  rw [hu, hs, hm, hf, hw]

theorem getNotesForUsers_congr (env : Env) (uids : List String) (members : List Membership)
    (meId : String) (rm : List String) {ps ps' : Ps}
    (hu : ps.untilId = ps'.untilId) (hs : ps.sinceId = ps'.sinceId)
    (hm : ps.includeMyRenotes = ps'.includeMyRenotes)
    (hf : ps.withFiles = ps'.withFiles) (hw : ps.withRenotes = ps'.withRenotes) :
    getNotesForUsers env uids members ps meId rm
      = getNotesForUsers env uids members ps' meId rm := by
  unfold getNotesForUsers
  rw [noteQueryPred_congr env uids members meId rm hu hs hm hf hw]

theorem batchLoopAux_congr (env : Env) (meId : String) (rm : List String) {ps ps' : Ps}
    (hu : ps.untilId = ps'.untilId) (hs : ps.sinceId = ps'.sinceId)
    (hm : ps.includeMyRenotes = ps'.includeMyRenotes)
    (hf : ps.withFiles = ps'.withFiles) (hw : ps.withRenotes = ps'.withRenotes)
    (hl : ps.limit = ps'.limit) :
    ∀ fuel vm acc b, batchLoopAux env ps meId rm fuel vm acc b
      = batchLoopAux env ps' meId rm fuel vm acc b := by
  intro fuel vm acc b
  induction fuel, vm, acc, b using batchLoopAux.induct env ps meId rm with
  | case1 t acc b => simp [batchLoopAux]
  | case2 m rest acc b => simp [batchLoopAux]
  | case3 fuel m rest acc b hfail ih =>
    simp only [batchLoopAux]
    rw [if_pos hfail, if_pos hfail, ih]
  | case4 fuel m rest acc b batch buids hfail acc2 hstop =>
    simp only [batchLoopAux]
    rw [if_neg hfail, if_neg hfail]
    have hq := getNotesForUsers_congr env buids batch meId rm hu hs hm hf hw
    rw [← hq, ← hl]
    rw [if_pos hstop, if_pos hstop]
  | case5 fuel m rest acc b batch buids hfail acc2 hstop ih =>
    simp only [batchLoopAux]
    rw [if_neg hfail, if_neg hfail]
    have hq := getNotesForUsers_congr env buids batch meId rm hu hs hm hf hw
    rw [← hq, ← hl]
    rw [if_neg hstop, if_neg hstop, ih]

theorem getOptimizedTimeline_congr (env : Env) (listId meId : String) {ps ps' : Ps}
    (hu : ps.untilId = ps'.untilId) (hs : ps.sinceId = ps'.sinceId)
    (hm : ps.includeMyRenotes = ps'.includeMyRenotes)
    (hf : ps.withFiles = ps'.withFiles) (hw : ps.withRenotes = ps'.withRenotes)
    (hl : ps.limit = ps'.limit) :
    getOptimizedTimeline env listId ps meId = getOptimizedTimeline env listId ps' meId := by
  unfold getOptimizedTimeline
  cases hfm : fetchListMembers env listId with
  | error e => rfl
  | ok lm =>
    dsimp only
    by_cases hz : (lm.length == 0) = true
    · rw [if_pos hz, if_pos hz]
    · rw [if_neg hz, if_neg hz]
      cases hmu : getMutedUsers env meId with
      | error e =>
        cases hbl : getBlockedUsers env meId <;>
          cases hrm : getRenoteMutedUsers env meId <;> rfl
      | ok muted =>
        cases hbl : getBlockedUsers env meId with
        | error e =>
          cases hrm : getRenoteMutedUsers env meId <;> rfl
        | ok blocked =>
          cases hrm : getRenoteMutedUsers env meId with
          | error e => rfl
          | ok rmu =>
            dsimp only
            have hbl2 : batchLoop env ps meId rmu
                (lm.filter (fun m => !((muted ++ blocked).contains m.userId))) [] 0
                = batchLoop env ps' meId rmu
                (lm.filter (fun m => !((muted ++ blocked).contains m.userId))) [] 0 :=
              batchLoopAux_congr env meId rmu hu hs hm hf hw hl _ _ _ _
            rw [hbl2, hl]

/-! Claim theorems. -/

/-- C9: for every two requests that are identical except in the values of
includeRenotedMyNotes and includeLocalRenotes, the optimized pipeline builds
the same batch query and the optimized path returns the same result: the two
flags are accepted but enforce no predicate on the optimized path. -/
theorem claim_c9 (env : Env) (listId meId : String) (ps : Ps) (v1 v2 w1 w2 : Option Bool) :
    (∀ (uids : List String) (members : List Membership) (rm : List String),
      getNotesForUsers env uids members
          { ps with includeRenotedMyNotes := v1, includeLocalRenotes := v2 } meId rm =
        getNotesForUsers env uids members
          { ps with includeRenotedMyNotes := w1, includeLocalRenotes := w2 } meId rm) ∧
    getOptimizedTimeline env listId
        { ps with includeRenotedMyNotes := v1, includeLocalRenotes := v2 } meId =
      getOptimizedTimeline env listId
        { ps with includeRenotedMyNotes := w1, includeLocalRenotes := w2 } meId := by
  constructor
  · intro uids members rm
    exact getNotesForUsers_congr env uids members meId rm rfl rfl rfl rfl rfl
  · exact getOptimizedTimeline_congr env listId meId rfl rfl rfl rfl rfl rfl

/-- Witness for C9 at concrete flag values: toggling the two unenforced
flags leaves the optimized result unchanged. -/
theorem claim_c9_witness :
    getOptimizedTimeline envBasic "L"
        { psNone with includeRenotedMyNotes := some true, includeLocalRenotes := some true }
        "me" =
      getOptimizedTimeline envBasic "L"
        { psNone with
            includeRenotedMyNotes := some false, includeLocalRenotes := some false } "me" :=
  (claim_c9 envBasic "L" "me" psNone (some true) (some true) (some false) (some false)).2

/-- C3: for every member list the batch loop issues its queries for the
successive 15-member slices in order (the k-th issued query targets members
15k to 15k+14); for every non-empty member list a successful batch is
followed by no further batch query exactly when the accumulator has reached
3 x limit posts, and otherwise the loop continues with the remaining
members; in particular with 20 members, limit 10 and no batch failure, a
second batch of the remaining 5 members is queried exactly when the first
batch of 15 yielded fewer than 30 posts. -/
theorem claim_c3 :
    (∀ (env : Env) (ps : Ps) (meId : String) (rm : List String) (vm : List Membership)
       (acc : List Note) (b k : Nat),
      k < ((batchLoop env ps meId rm vm acc b).2).length →
      ((batchLoop env ps meId rm vm acc b).2)[k]?
        = some (((vm.drop (15 * k)).take 15).map (fun m => m.userId))) ∧
    (∀ (env : Env) (ps : Ps) (meId : String) (rm : List String) (vm : List Membership)
       (acc : List Note) (b : Nat),
      vm ≠ [] → env.batchFail b = false →
      (batchLoop env ps meId rm vm acc b).2 =
        (vm.take 15).map (fun m => m.userId) ::
          (if ps.limit.getD 10 * 3 ≤
              (acc ++ getNotesForUsers env ((vm.take 15).map (fun m => m.userId))
                (vm.take 15) ps meId rm).length
           then []
           else (batchLoop env ps meId rm (vm.drop 15)
              (acc ++ getNotesForUsers env ((vm.take 15).map (fun m => m.userId))
                (vm.take 15) ps meId rm) (b + 1)).2)) ∧
    (∀ (env : Env) (ps : Ps) (meId : String) (rm : List String) (vm : List Membership),
      vm.length = 20 → ps.limit = some 10 → (∀ b, env.batchFail b = false) →
      (vm.take 15).length = 15 ∧ (vm.drop 15).length = 5 ∧
      (batchLoop env ps meId rm vm [] 0).2 =
        (if 30 ≤ (getNotesForUsers env ((vm.take 15).map (fun m => m.userId)) (vm.take 15)
            ps meId rm).length then
          [(vm.take 15).map (fun m => m.userId)]
        else
          [(vm.take 15).map (fun m => m.userId), (vm.drop 15).map (fun m => m.userId)])) := by
  have h2 : ∀ (env : Env) (ps : Ps) (meId : String) (rm : List String)
      (vm : List Membership) (acc : List Note) (b : Nat),
      vm ≠ [] → env.batchFail b = false →
      (batchLoop env ps meId rm vm acc b).2 =
        (vm.take 15).map (fun m => m.userId) ::
          (if ps.limit.getD 10 * 3 ≤
              (acc ++ getNotesForUsers env ((vm.take 15).map (fun m => m.userId))
                (vm.take 15) ps meId rm).length
           then []
           else (batchLoop env ps meId rm (vm.drop 15)
              (acc ++ getNotesForUsers env ((vm.take 15).map (fun m => m.userId))
                (vm.take 15) ps meId rm) (b + 1)).2) := by
    intro env ps meId rm vm acc b hne hfail
    obtain ⟨m, rest, hvm⟩ := List.exists_cons_of_ne_nil hne
    subst hvm
    unfold batchLoop
    simp only [List.length_cons]
    simp only [batchLoopAux]
    rw [if_neg (by simp [hfail])]
    have hd1 : (List.drop 15 (m :: rest)).length ≤ rest.length := by
      simp only [List.length_drop, List.length_cons]
      omega
    by_cases hstop : ps.limit.getD 10 * 3 ≤
        (acc ++ getNotesForUsers env
          ((List.take 15 (m :: rest)).map (fun x => x.userId))
          (List.take 15 (m :: rest)) ps meId rm).length
    · rw [if_pos hstop, if_pos hstop]
    · rw [if_neg hstop, if_neg hstop]
      rw [batchLoopAux_fuel env ps meId rm rest.length (List.drop 15 (m :: rest)).length
        (List.drop 15 (m :: rest)) _ _ hd1 le_rfl]
  refine ⟨?_, h2, ?_⟩
  · intro env ps meId rm vm acc b k hk
    exact batchLoopAux_trace env ps meId rm vm.length vm acc b k hk
  · intro env ps meId rm vm h20 hlim hnf
    refine ⟨by simp [List.length_take, h20], by simp [List.length_drop, h20], ?_⟩
    have hne : vm ≠ [] := by
      intro hh
      rw [hh] at h20
      simp at h20
    have hlen5 : (vm.drop 15).length = 5 := by simp [List.length_drop, h20]
    have hne2 : vm.drop 15 ≠ [] := by
      intro hh
      rw [hh] at hlen5
      simp at hlen5
    have htake : (vm.drop 15).take 15 = vm.drop 15 :=
      List.take_of_length_le (by simp [hlen5])
    have hdd : (vm.drop 15).drop 15 = [] :=
      List.drop_eq_nil_of_le (by simp [hlen5])
    rw [h2 env ps meId rm vm [] 0 hne (hnf 0)]
    rw [hlim]
    simp only [Option.getD_some, List.nil_append]
    rw [show (10 * 3 : Nat) = 30 from rfl]
    by_cases hq : 30 ≤ (getNotesForUsers env ((vm.take 15).map (fun m => m.userId))
        (vm.take 15) ps meId rm).length
    · rw [if_pos hq, if_pos hq]
    · rw [if_neg hq, if_neg hq]
      rw [h2 env ps meId rm (vm.drop 15) _ 1 hne2 (hnf 1)]
      rw [htake, hdd]
      have hnil : ∀ (acc2 : List Note) (b2 : Nat),
          (batchLoop env ps meId rm [] acc2 b2).2 = [] := by
        intro acc2 b2
        simp [batchLoop, batchLoopAux]
      rw [hnil, ite_self]

/-- Witness for C3: twenty concrete members against the concrete store; the
second issued query targets the slice of the remaining 5 members, the step
equation holds at the first batch, and the first batch yields fewer than 30
posts so the second batch is queried. -/
theorem claim_c3_witness :
    (((batchLoop envBasic { psNone with limit := some 10 } "me" [] members20 [] 0).2)[1]?
      = some (((members20.drop (15 * 1)).take 15).map (fun m => m.userId))) ∧
    ((batchLoop envBasic { psNone with limit := some 10 } "me" [] members20 [] 0).2 =
      (members20.take 15).map (fun m => m.userId) ::
        (if ({ psNone with limit := some 10 } : Ps).limit.getD 10 * 3 ≤
            (([] : List Note) ++ getNotesForUsers envBasic
              ((members20.take 15).map (fun m => m.userId)) (members20.take 15)
              { psNone with limit := some 10 } "me" []).length
         then []
         else (batchLoop envBasic { psNone with limit := some 10 } "me" []
            (members20.drop 15)
            (([] : List Note) ++ getNotesForUsers envBasic
              ((members20.take 15).map (fun m => m.userId)) (members20.take 15)
              { psNone with limit := some 10 } "me" []) 1).2)) ∧
    (members20.take 15).length = 15 ∧ (members20.drop 15).length = 5 ∧
    (batchLoop envBasic { psNone with limit := some 10 } "me" [] members20 [] 0).2 =
      (if 30 ≤ (getNotesForUsers envBasic ((members20.take 15).map (fun m => m.userId))
          (members20.take 15) { psNone with limit := some 10 } "me" []).length then
        [(members20.take 15).map (fun m => m.userId)]
      else
        [(members20.take 15).map (fun m => m.userId),
         (members20.drop 15).map (fun m => m.userId)]) :=
  ⟨claim_c3.1 envBasic { psNone with limit := some 10 } "me" [] members20 [] 0 1
     (by decide),
   claim_c3.2.1 envBasic { psNone with limit := some 10 } "me" [] members20 [] 0
     (by decide) rfl,
   (claim_c3.2.2 envBasic { psNone with limit := some 10 } "me" [] members20 (by decide)
     rfl (fun _ => rfl)).1,
   (claim_c3.2.2 envBasic { psNone with limit := some 10 } "me" [] members20 (by decide)
     rfl (fun _ => rfl)).2.1,
   (claim_c3.2.2 envBasic { psNone with limit := some 10 } "me" [] members20 (by decide)
     rfl (fun _ => rfl)).2.2⟩

/-- C10: for every request supplying both an id cursor and a date cursor on
the same side, the id value is used as the pagination bound and the date
value is ignored; the date variant is converted to an id only when the
corresponding id parameter is absent (a present non-zero date is then
converted through the id-generation service). -/
theorem claim_c10 :
    (∀ (gen : Nat → Nat) (i : Nat) (d : Option Nat),
      resolveCursorId (some i) d gen = some i) ∧
    (∀ (gen : Nat → Nat) (d : Nat), d ≠ 0 →
      resolveCursorId none (some d) gen = some (gen d)) := by
  constructor
  · intro gen i d
    rfl
  · intro gen d hd
    simp [resolveCursorId, hd]

/-- Witness for C10 at a concrete non-zero date. -/
theorem claim_c10_witness :
    (3 : Nat) ≠ 0 ∧ resolveCursorId none (some 3) (fun d => d + 100) = some 103 :=
  ⟨by decide, claim_c10.2 (fun d => d + 100) 3 (by decide)⟩

/-- C6 counterexample: the claim fails as stated.  The source awaits the
fallback query inside the catch block with no further catch, so when the
optimized path rejects and the fallback query itself rejects, the rejection
propagates to the caller of getFromDb. -/
theorem claim_c6_counterexample :
    getOptimizedTimeline { envBasic with membersFail := true, fallbackFail := true } "L"
      psNone "me" = .error .queryFailed ∧
    getFromDb { envBasic with membersFail := true, fallbackFail := true } "L" psNone "me"
      = .error .queryFailed := by
  refine ⟨by decide, by decide⟩

/-- C6 (amended): for every request on the relational path, if the optimized
query rejects with any error, getFromDb returns the outcome of running the
relational fallback query, with no further recovery step: when the fallback
query succeeds its rows are returned as a success, and a rejection of the
fallback query itself is not caught and propagates to the caller. -/
theorem claim_c6 (env : Env) (listId : String) (ps : Ps) (meId : String) (e : DbErr)
    (h : getOptimizedTimeline env listId ps meId = .error e) :
    getFromDb env listId ps meId = runFallbackTimeline env listId ps ∧
    (env.fallbackFail = false →
      getFromDb env listId ps meId = .ok (getFallbackTimeline env listId ps)) ∧
    (env.fallbackFail = true →
      getFromDb env listId ps meId = .error .queryFailed) := by
  have h1 : getFromDb env listId ps meId = runFallbackTimeline env listId ps := by
    unfold getFromDb
    rw [h]
  refine ⟨h1, ?_, ?_⟩
  · intro hf
    rw [h1]
    unfold runFallbackTimeline
    simp [hf]
  · intro hf
    rw [h1]
    unfold runFallbackTimeline
    simp [hf]

/-- Witness for C6 (amended): with a rejected membership query the optimized
path throws; getFromDb then returns the fallback rows when the fallback
query succeeds, and the fallback rejection when it fails. -/
theorem claim_c6_witness :
    getOptimizedTimeline envMembersFail "L" psNone "me" = .error .queryFailed ∧
    getFromDb envMembersFail "L" psNone "me" =
      .ok (getFallbackTimeline envMembersFail "L" psNone) ∧
    getFromDb { envMembersFail with fallbackFail := true } "L" psNone "me" =
      .error .queryFailed :=
  ⟨by decide,
   (claim_c6 envMembersFail "L" psNone "me" .queryFailed (by decide)).2.1 rfl,
   (claim_c6 { envMembersFail with fallbackFail := true } "L" psNone "me" .queryFailed
     (by decide)).2.2 rfl⟩

/-- C7: a failing renote-mute lookup is replaced by the empty set and the
optimized path still succeeds, while a failing mute lookup or block lookup
is not suppressed: it propagates as an error of the optimized path (the
lookups are reached whenever the fetched member list is non-empty). -/
theorem claim_c7 :
    (∀ (env : Env) (uid : String), env.renoteMutedFail = true →
      getRenoteMutedUsers env uid = .ok []) ∧
    (∀ (env : Env) (listId : String) (ps : Ps) (meId : String),
      env.membersFail = false →
      env.memberships.filter (fun m => m.userListId == listId) ≠ [] →
      env.mutedFail = true →
      getOptimizedTimeline env listId ps meId = .error .queryFailed) ∧
    (∀ (env : Env) (listId : String) (ps : Ps) (meId : String),
      env.membersFail = false →
      env.memberships.filter (fun m => m.userListId == listId) ≠ [] →
      env.mutedFail = false → env.blockedFail = true →
      getOptimizedTimeline env listId ps meId = .error .queryFailed) ∧
    (∀ (env : Env) (listId : String) (ps : Ps) (meId : String),
      env.membersFail = false → env.mutedFail = false → env.blockedFail = false →
      ∃ r, getOptimizedTimeline env listId ps meId = .ok r) := by
  refine ⟨?_, ?_, ?_, ?_⟩
  · intro env uid h
    simp [getRenoteMutedUsers, renoteMutingsQuery, h]
  · intro env listId ps meId hmf hne hmut
    unfold getOptimizedTimeline fetchListMembers
    simp only [hmf, Bool.false_eq_true, if_false]
    rw [if_neg (by simpa [List.length_eq_zero] using hne)]
    unfold getMutedUsers
    simp [hmut]
  · intro env listId ps meId hmf hne hmut hblk
    unfold getOptimizedTimeline fetchListMembers
    simp only [hmf, Bool.false_eq_true, if_false]
    rw [if_neg (by simpa [List.length_eq_zero] using hne)]
    unfold getMutedUsers getBlockedUsers
    simp [hmut, hblk]
  · intro env listId ps meId hmf hmut hblk
    unfold getOptimizedTimeline fetchListMembers
    simp only [hmf, Bool.false_eq_true, if_false]
    split
    · exact ⟨[], rfl⟩
    · unfold getMutedUsers getBlockedUsers getRenoteMutedUsers renoteMutingsQuery
      simp only [hmut, hblk, Bool.false_eq_true, if_false]
      cases hrm : env.renoteMutedFail
      · simp only [Bool.false_eq_true, if_false]
        split
        · exact ⟨[], rfl⟩
        · exact ⟨_, rfl⟩
      · simp only [if_true]
        split
        · exact ⟨[], rfl⟩
        · exact ⟨_, rfl⟩

/-- Witness for C7: concrete instances of all four conjuncts. -/
theorem claim_c7_witness :
    getRenoteMutedUsers { envBasic with renoteMutedFail := true } "me" = .ok [] ∧
    getOptimizedTimeline { envBasic with mutedFail := true } "L" psNone "me" =
      .error .queryFailed ∧
    getOptimizedTimeline { envBasic with blockedFail := true } "L" psNone "me" =
      .error .queryFailed ∧
    ∃ r, getOptimizedTimeline { envBasic with renoteMutedFail := true } "L" psNone "me" =
      .ok r :=
  ⟨claim_c7.1 { envBasic with renoteMutedFail := true } "me" rfl,
   claim_c7.2.1 { envBasic with mutedFail := true } "L" psNone "me" rfl (by decide) rfl,
   claim_c7.2.2.1 { envBasic with blockedFail := true } "L" psNone "me" rfl (by decide)
     rfl rfl,
   claim_c7.2.2.2 { envBasic with renoteMutedFail := true } "L" psNone "me" rfl rfl rfl⟩

/-- C8: in each batch query, a post passes the reply filter exactly when it
is not a reply, or is a self-reply, or is a reply directed at the caller, or
its author is a batch member whose withReplies flag is true; when no batch
member has withReplies the last disjunct is omitted; and every post returned
by a batch query passed the reply filter. -/
theorem claim_c8 (members : List Membership) (meId : String) (note : Note) :
    (replyFilter members meId note = true ↔
      (note.replyId = none ∨ note.replyUserId = some note.userId ∨
       note.replyUserId = some meId ∨
       note.userId ∈ membersWithReplies members)) ∧
    (membersWithReplies members = [] →
      (replyFilter members meId note = true ↔
        (note.replyId = none ∨ note.replyUserId = some note.userId ∨
         note.replyUserId = some meId))) ∧
    (∀ (env : Env) (uids : List String) (ps : Ps) (rm : List String),
      note ∈ getNotesForUsers env uids members ps meId rm →
      replyFilter members meId note = true) := by
  refine ⟨?_, ?_, ?_⟩
  · unfold replyFilter
    split
    next hlen =>
      simp only [Bool.or_eq_true, Option.isNone_iff_eq_none, beq_iff_eq, List.elem_iff]
      tauto
    next hlen =>
      have hempty : membersWithReplies members = [] := by
        rcases Nat.eq_zero_or_pos (membersWithReplies members).length with h0 | h0
        · exact List.length_eq_zero.mp h0
        · exact absurd h0 hlen
      simp only [hempty, Bool.or_eq_true, Option.isNone_iff_eq_none, beq_iff_eq,
        List.not_mem_nil, or_false]
      tauto
  · intro hempty
    unfold replyFilter
    rw [if_neg (by simp [hempty])]
    simp only [Bool.or_eq_true, Option.isNone_iff_eq_none, beq_iff_eq]
    tauto
  · intro env uids ps rm hmem
    exact (mem_getNotesForUsers hmem).2.2.2.2.1

/-- Witness for C8: a member list without any withReplies flag; a reply to a
third party is then admitted only through the three remaining disjuncts. -/
theorem claim_c8_witness :
    membersWithReplies [⟨"L", "A", false⟩] = [] ∧
    (replyFilter [⟨"L", "A", false⟩] "me"
        { id := 6, userId := "A", channelId := none, replyId := some 5,
          replyUserId := some "T", renoteId := none, text := some "r", fileIds := [],
          visibility := .public, userIsSuspended := false } = true ↔
      ((some 5 : Option Nat) = none ∨ (some "T" : Option String) = some "A" ∨
       (some "T" : Option String) = some "me")) :=
  ⟨by decide,
   (claim_c8 [⟨"L", "A", false⟩] "me"
     { id := 6, userId := "A", channelId := none, replyId := some 5,
       replyUserId := some "T", renoteId := none, text := some "r", fileIds := [],
       visibility := .public, userIsSuspended := false }).2.1 (by decide)⟩

/-- C1 counterexample: the claim fails as stated.  When the optimized path
throws and the result is produced by the relational fallback, a post by a
muted member does appear: the fallback applies no mute filtering. -/
theorem claim_c1_counterexample :
    getMutedUsers envMembersFail "me" = .ok ["C"] ∧
    getFromDb envMembersFail "L" psNone "me" = .ok [noteA, noteC] ∧
    noteC.userId = "C" := by
  refine ⟨by decide, by decide, by decide⟩

/-- C1 (amended): for every request answered by the optimized path and every
member whose id is in the mute set or block set of the caller, no post
authored by that member appears in the returned sequence, regardless of
which filter flags are set; the relational fallback applies no mute or block
filtering, so the guarantee is limited to the optimized path. -/
theorem claim_c1 (env : Env) (listId : String) (ps : Ps) (meId : String) (r : List Note)
    (x : String)
    (h : getOptimizedTimeline env listId ps meId = .ok r)
    (hx : x ∈ (env.mutings.filter (fun rel => rel.sourceId == meId)).map
        (fun rel => rel.targetId) ∨
      x ∈ (env.blockings.filter (fun rel => rel.sourceId == meId)).map
        (fun rel => rel.targetId)) :
    ∀ n ∈ r, n.userId ≠ x := by
  rcases getOptimizedTimeline_ok h with hr | ⟨muted, blocked, rmu, hm, hb, _, hr⟩
  · subst hr
    intro n hn
    exact absurd hn (List.not_mem_nil n)
  · subst hr
    intro n hn hne
    have h1 : n ∈ (batchLoop env ps meId rmu
        ((env.memberships.filter (fun m => m.userListId == listId)).filter
          (fun m => !((muted ++ blocked).contains m.userId))) [] 0).1 :=
      (List.perm_insertionSort noteGe _).mem_iff.mp (List.mem_of_mem_take hn)
    rcases batchLoopAux_mem env ps meId rmu _ _ [] 0 n h1 with hc | ⟨_, hid⟩
    · exact absurd hc (List.not_mem_nil n)
    · obtain ⟨m, hmval, hmid⟩ := List.mem_map.mp hid
      have hmf := List.mem_filter.mp hmval
      have hnotin : m.userId ∉ muted ++ blocked := by simpa using hmf.2
      apply hnotin
      have hxin : x ∈ muted ++ blocked := by
        rw [getMutedUsers_ok hm, getBlockedUsers_ok hb]
        rcases hx with hxm | hxb
        · exact List.mem_append.mpr (Or.inl hxm)
        · exact List.mem_append.mpr (Or.inr hxb)
      rw [hmid, hne]
      exact hxin

/-- Witness for C1 (amended): on the optimized path the muted member C is
filtered out and the returned note is not authored by C. -/
theorem claim_c1_witness :
    getOptimizedTimeline envBasic "L" psNone "me" = .ok [noteA] ∧
    "C" ∈ (envBasic.mutings.filter (fun rel => rel.sourceId == "me")).map
      (fun rel => rel.targetId) ∧
    noteA.userId ≠ "C" :=
  ⟨by decide, by decide,
   claim_c1 envBasic "L" psNone "me" [noteA] "C" (by decide) (Or.inl (by decide)) noteA
     (by decide)⟩

/-- C5 counterexample: with withRenotes = false the optimized path still
returns a post with repostOfId set and bodyText null, because the post
carries an attachment and the built clause keeps posts with attachments. -/
theorem claim_c5_counterexample :
    getOptimizedTimeline envRenote "L" { psNone with withRenotes := some false } "me" =
      .ok [noteRenote] ∧
    noteRenote.renoteId = some 1 ∧ noteRenote.text = none := by
  refine ⟨by decide, by decide, by decide⟩

/-- C5 (amended): for every request answered by the optimized path with
withRenotes = false, every returned post is no repost, or has body text, or
has a non-empty attachment list — i.e. no attachment-free pure repost is
returned. -/
theorem claim_c5 (env : Env) (listId : String) (ps : Ps) (meId : String) (r : List Note)
    (hwr : ps.withRenotes = some false)
    (h : getOptimizedTimeline env listId ps meId = .ok r) :
    ∀ n ∈ r, n.renoteId = none ∨ n.text.isSome = true ∨ n.fileIds ≠ [] := by
  rcases getOptimizedTimeline_ok h with hr | ⟨muted, blocked, rmu, _, _, _, hr⟩
  · subst hr
    intro n hn
    exact absurd hn (List.not_mem_nil n)
  · subst hr
    intro n hn
    have h1 : n ∈ (batchLoop env ps meId rmu
        ((env.memberships.filter (fun m => m.userListId == listId)).filter
          (fun m => !((muted ++ blocked).contains m.userId))) [] 0).1 :=
      (List.perm_insertionSort noteGe _).mem_iff.mp (List.mem_of_mem_take hn)
    refine batchLoopAux_pred env ps meId rmu
      (fun p => p.renoteId = none ∨ p.text.isSome = true ∨ p.fileIds ≠ []) ?_ _ _ [] 0
      (fun p hp => absurd hp (List.not_mem_nil p)) n h1
    intro uids members p hp
    exact withRenotesFilter_false hwr (mem_getNotesForUsers hp).2.2.2.2.2.2.2.2.1

/-- Witness for C5 (amended) at a concrete optimized run. -/
theorem claim_c5_witness :
    getOptimizedTimeline envBasic "L" { psNone with withRenotes := some false } "me" =
      .ok [noteA] ∧
    (noteA.renoteId = none ∨ noteA.text.isSome = true ∨ noteA.fileIds ≠ []) :=
  ⟨by decide,
   claim_c5 envBasic "L" { psNone with withRenotes := some false } "me" [noteA] rfl
     (by decide) noteA (by decide)⟩

/-- C4: every post returned by the relational fallback engine has a null
channelId, a non-suspended author holding a membership row of the requested
list, and public or home visibility; and the fallback result satisfies the
exclusive cursor bounds, is strictly ordered by id descending, and is
truncated to the limit. -/
theorem claim_c4 (env : Env) (listId : String) (ps : Ps)
    (hdb : (env.db.map Note.id).Nodup) :
    (∀ n ∈ getFallbackTimeline env listId ps,
      n.channelId = none ∧ n.userIsSuspended = false ∧
      (∃ m ∈ env.memberships, m.userId = n.userId ∧ m.userListId = listId) ∧
      (n.visibility = .public ∨ n.visibility = .home) ∧
      (∀ u, ps.untilId = some u → n.id < u) ∧
      (∀ s, ps.sinceId = some s → s < n.id)) ∧
    List.Pairwise (fun a b : Note => b.id < a.id) (getFallbackTimeline env listId ps) ∧
    (getFallbackTimeline env listId ps).length ≤ ps.limit.getD 10 := by
  refine ⟨?_, ?_, ?_⟩
  · intro n hn
    obtain ⟨hdbm, hmem, hch, hsusp, hvis, hcur⟩ := mem_getFallbackTimeline hn
    exact ⟨hch, hsusp, hmem, hvis,
      fun u hu => cursorFilter_until hcur hu,
      fun s hs => cursorFilter_since hcur hs⟩
  · exact pairwise_lt_of_ids_nodup (runQuery_sorted _ _ _) (runQuery_ids_nodup _ _ hdb)
  · exact runQuery_length_le _ _ _

/-- Witness for C4 at a concrete environment. -/
theorem claim_c4_witness :
    (envBasic.db.map Note.id).Nodup ∧
    List.Pairwise (fun a b : Note => b.id < a.id)
      (getFallbackTimeline envBasic "L" psNone) ∧
    (getFallbackTimeline envBasic "L" psNone).length ≤ psNone.limit.getD 10 :=
  ⟨by decide, (claim_c4 envBasic "L" psNone (by decide)).2.1,
   (claim_c4 envBasic "L" psNone (by decide)).2.2⟩

/-- C2: when the stored note ids are unique and the membership rows of the
list have unique member ids (the uniqueness constraints of the data model),
every successful optimized result is strictly sorted by id descending, has
no duplicate ids, and is no longer than the requested limit. -/
theorem claim_c2 (env : Env) (listId : String) (ps : Ps) (meId : String) (r : List Note)
    (hdb : (env.db.map Note.id).Nodup)
    (hmem : ((env.memberships.filter (fun m => m.userListId == listId)).map
      (fun m => m.userId)).Nodup)
    (h : getOptimizedTimeline env listId ps meId = .ok r) :
    List.Pairwise (fun a b : Note => b.id < a.id) r ∧
    (r.map Note.id).Nodup ∧ r.length ≤ ps.limit.getD 10 := by
  rcases getOptimizedTimeline_ok h with hr | ⟨muted, blocked, rmu, _, _, _, hr⟩
  · subst hr
    exact ⟨List.Pairwise.nil, List.nodup_nil, by simp⟩
  · subst hr
    have hvmnodup : ((((env.memberships.filter (fun m => m.userListId == listId)).filter
        (fun m => !((muted ++ blocked).contains m.userId)))).map
        (fun m => m.userId)).Nodup :=
      List.Sublist.nodup (map_filter_sublist _ _ _) hmem
    have hloop := batchLoopAux_ids_nodup env ps meId rmu hdb
      ((env.memberships.filter (fun m => m.userListId == listId)).filter
        (fun m => !((muted ++ blocked).contains m.userId))).length
      ((env.memberships.filter (fun m => m.userListId == listId)).filter
        (fun m => !((muted ++ blocked).contains m.userId))) [] 0 hvmnodup
      List.nodup_nil (fun n hn => absurd hn (List.not_mem_nil n))
      (fun n hn => absurd hn (List.not_mem_nil n))
    have hsortnodup : ((List.insertionSort noteGe (batchLoop env ps meId rmu
        ((env.memberships.filter (fun m => m.userListId == listId)).filter
          (fun m => !((muted ++ blocked).contains m.userId))) [] 0).1).map
        Note.id).Nodup :=
      ((List.perm_insertionSort noteGe _).map Note.id).nodup_iff.mpr hloop.1
    have htakenodup := List.Sublist.nodup
      (List.Sublist.map Note.id (List.take_sublist (ps.limit.getD 10) _)) hsortnodup
    have hsorted : List.Pairwise (fun a b : Note => b.id ≤ a.id)
        ((List.insertionSort noteGe (batchLoop env ps meId rmu
          ((env.memberships.filter (fun m => m.userListId == listId)).filter
            (fun m => !((muted ++ blocked).contains m.userId))) [] 0).1).take
          (ps.limit.getD 10)) := by
      refine List.Pairwise.sublist (List.take_sublist _ _) ?_
      exact (List.sorted_insertionSort noteGe _).imp (fun h => h)
    exact ⟨pairwise_lt_of_ids_nodup hsorted htakenodup, htakenodup,
      List.length_take_le _ _⟩

/-- Witness for C2 at a concrete optimized run. -/
theorem claim_c2_witness :
    getOptimizedTimeline envBasic "L" psNone "me" = .ok [noteA] ∧
    List.Pairwise (fun a b : Note => b.id < a.id) [noteA] ∧
    ([noteA].map Note.id).Nodup ∧ ([noteA] : List Note).length ≤ psNone.limit.getD 10 :=
  ⟨by decide, claim_c2 envBasic "L" psNone "me" [noteA] (by decide) (by decide) (by decide)⟩

end UserListTimeline
